import Mathlib

/-
Verification of the inventory manager (Manipulación.py / Manipulación1.py).

Shallow embedding notes:
- Python strings are modelled as `List Char` (`PyStr`).
- Python `dict` (insertion ordered) is modelled as an association list;
  assignment of a fresh key appends, assignment of an existing key updates
  the value in place, `del` removes the entry.
- A file is modelled by its content: an `Option PyStr` (delimited variant)
  or an `Option (MJson P)` (JSON variant, where the trusted `json` library
  is treated as an exact codec between text and JSON values, so a file
  holds the JSON value itself).  A `writable` flag selects whether opening
  a file for writing succeeds or raises `PermissionError`.
- The price field is dynamically typed in Python; the embedding is
  parametric in the price type `P` together with the rendering/parsing
  functions used by the delimited codec (Python `str`/`float`).  Witnesses
  instantiate `P := Nat` with a verified decimal codec.
- Python exceptions surface as `Except PyErr` / `Option`.
-/

/-- Python strings, modelled as lists of characters. -/
abbrev PyStr := List Char

/-- The ASCII whitespace characters removed by Python `str.strip()`
(space, tab, newline, carriage return, vertical tab, form feed). -/
def isPySpace (c : Char) : Bool :=
  c.toNat = 32 || c.toNat = 9 || c.toNat = 10 || c.toNat = 13 ||
  c.toNat = 11 || c.toNat = 12

/-- ASCII decimal digit test ('0'-'9'). -/
def isDigitChar (c : Char) : Bool :=
  48 ≤ c.toNat && c.toNat ≤ 57

/-- Value of a decimal digit character. -/
def dval (c : Char) : Nat := c.toNat - 48

/-- The decimal digit character for `d < 10`. -/
def digitChar (d : Nat) : Char := Char.ofNat (48 + d)

/-- Python `str.strip()`: drop leading and trailing whitespace. -/
def pstrip (l : PyStr) : PyStr :=
  ((l.dropWhile isPySpace).reverse.dropWhile isPySpace).reverse

/-- Python `str.split(c)` for a one-character separator: the list of
chunks between occurrences of `c` (never empty; `[[]]` for the empty
string). -/
def splitOnChar (c : Char) : PyStr → List PyStr
  | [] => [[]]
  | x :: xs =>
    match splitOnChar c xs with
    | [] => [[]]
    | y :: ys => if x = c then [] :: y :: ys else (x :: y) :: ys

/-- Python `str.lower()` (ASCII model). -/
def pyLower (l : PyStr) : PyStr := l.map Char.toLower

/-- Whether `a` is an initial segment of `b` (helper for `pyIn`). -/
def pyStartsWith : PyStr → PyStr → Bool
  | [], _ => true
  | _ :: _, [] => false
  | a :: as_, b :: bs => a = b && pyStartsWith as_ bs

/-- Python `a in b` on strings: substring containment. -/
def pyIn (a : PyStr) : PyStr → Bool
  | [] => pyStartsWith a []
  | c :: bs => pyStartsWith a (c :: bs) || pyIn a (c :: bs).tail

/-- Decimal rendering of a natural number, with explicit fuel so that the
kernel can evaluate it (the fuel is always sufficient, see `natRender`). -/
def natRenderAux : Nat → Nat → PyStr
  | 0, _ => []
  | fuel + 1, n =>
    if n < 10 then [digitChar n]
    else natRenderAux fuel (n / 10) ++ [digitChar (n % 10)]

/-- Decimal rendering of a natural number (Python `str` on a
non-negative int). -/
def natRender (n : Nat) : PyStr := natRenderAux (n + 1) n

/-- Parse a non-empty all-digit string as a natural number. -/
def natParse (l : PyStr) : Option Nat :=
  if !l.isEmpty && l.all isDigitChar then
    some (l.foldl (fun a c => 10 * a + dval c) 0)
  else none

/-- Python `str` on an int. -/
def intRender (i : Int) : PyStr :=
  if i < 0 then '-' :: natRender i.natAbs else natRender i.natAbs

/-- Python `int()` on a string: optional surrounding whitespace, optional
sign, then decimal digits (the rarely-used underscore grouping of Python
numerals is not modelled; no claim depends on it). -/
def intParse (l : PyStr) : Option Int :=
  if (pstrip l).head? = some '-' then
    match natParse (pstrip l).tail with
    | some n => some (-(n : Int))
    | none => none
  else if (pstrip l).head? = some '+' then
    match natParse (pstrip l).tail with
    | some n => some ((n : Int))
    | none => none
  else
    match natParse (pstrip l) with
    | some n => some ((n : Int))
    | none => none

/-- The lines produced by iterating over an open text file in Python,
after discarding the line terminators (the code strips each line anyway):
split on newline and drop the trailing empty chunk when the file ends
with a newline. -/
def fileLines (s : PyStr) : List PyStr :=
  if (splitOnChar '\n' s).getLast? = some [] then (splitOnChar '\n' s).dropLast
  else splitOnChar '\n' s

/-- Python dict lookup `d.get(k)`. -/
def dictLookup (k : PyStr) : List (PyStr × β) → Option β
  | [] => none
  | e :: t => if e.1 = k then some e.2 else dictLookup k t

/-- Python dict assignment `d[k] = v`: update in place if the key exists,
otherwise append. -/
def dictInsert (k : PyStr) (v : β) : List (PyStr × β) → List (PyStr × β)
  | [] => [(k, v)]
  | e :: t => if e.1 = k then (k, v) :: t else e :: dictInsert k v t

/-- Python `del d[k]`. -/
def dictErase (k : PyStr) : List (PyStr × β) → List (PyStr × β)
  | [] => []
  | e :: t => if e.1 = k then t else e :: dictErase k t

/-- In-place mutation of the value stored under `k` (Python mutates the
object held in the dict; the dict structure is unchanged). -/
def dictModify (k : PyStr) (f : β → β) (l : List (PyStr × β)) :
    List (PyStr × β) :=
  l.map (fun e => if e.1 = k then (e.1, f e.2) else e)

/-- Python `list(d.values())`. -/
def dictValues (l : List (PyStr × β)) : List β := l.map Prod.snd

/-- Python `k in d` on a dict. -/
def hasKey (k : PyStr) (l : List (PyStr × β)) : Bool :=
  (dictLookup k l).isSome

/-- The Python exceptions relevant to this program. -/
inductive PyErr where
  | valueError
  | permissionError
  | ioError
  | otherError
deriving DecidableEq

/-- class Producto: one product record (id, nombre, cantidad, precio).
`cantidad` is a Python int; the price type `P` is a parameter (see the
header comment). -/
structure Producto (P : Type) where
  id : PyStr
  nombre : PyStr
  cantidad : Int
  precio : P
deriving DecidableEq

/-- The change applied to a product by `actualizar_producto`'s two `if`
statements: fields with a supplied (non-`None`) new value are overwritten,
the others keep their prior value. -/
def updateProd (c? : Option Int) (pr? : Option P) (r : Producto P) :
    Producto P :=
  Producto.mk r.id r.nombre
    (match c? with | some q => q | none => r.cantidad)
    (match pr? with | some x => x | none => r.precio)

namespace Manipulacion

/-- The backing file of the delimited variant plus whether writing to
(resp. reading from) it is permitted. -/
structure FS1 where
  content : Option PyStr
  writable : Bool
deriving DecidableEq

/-- The body (without the final newline) of the line
`f"{id}|{nombre}|{cantidad}|{precio}\n"` written for one product
(Manipulación.py line 57); `renderP` is Python `str` on the price. -/
def lineBody (renderP : P → PyStr) (p : Producto P) : PyStr :=
  p.id ++ '|' :: (p.nombre ++ '|' :: (intRender p.cantidad ++ '|' :: renderP p.precio))

/-- The full text written by `guardar_inventario`: one newline-terminated
line per product, in dict order (Manipulación.py lines 55-57). -/
def serializeDelim (renderP : P → PyStr) (prods : List (PyStr × Producto P)) :
    PyStr :=
  List.flatten (prods.map (fun e => lineBody renderP e.2 ++ ['\n']))

/-- guardar_inventario (Manipulación.py lines 52-59): rewrite the file
with the serialized mapping; a `PermissionError`/`IOError` is caught and
only printed, leaving the previous content (the failure occurs when
opening the file for writing). -/
def guardar_inventario (renderP : P → PyStr)
    (prods : List (PyStr × Producto P)) (fs : FS1) : FS1 :=
  if fs.writable then FS1.mk (some (serializeDelim renderP prods)) fs.writable
  else fs

/-- One line of `cargar_inventario` (Manipulación.py lines 47-48):
`linea.strip().split('|')` must yield exactly four fields, with
`int(cantidad)` and `float(precio)` succeeding; `parseP` is Python
`float` on a string.  `none` means the line raises `ValueError`. -/
def parseLine (parseP : PyStr → Option P) (l : PyStr) :
    Option (PyStr × Producto P) :=
  match splitOnChar '|' (pstrip l) with
  | [a, b, c, d] =>
    match intParse c, parseP d with
    | some q, some pr => some (a, Producto.mk a b q pr)
    | _, _ => none
  | _ => none

/-- The loop of `cargar_inventario` over the file's lines, accumulating
`self.productos[id_producto] = Producto(...)`; the first malformed line
raises `ValueError`, which is not caught (line 49 catches only
`FileNotFoundError` and `PermissionError`). -/
def cargarGo (parseP : PyStr → Option P) :
    List PyStr → List (PyStr × Producto P) →
    Except PyErr (List (PyStr × Producto P))
  | [], acc => .ok acc
  | l :: ls, acc =>
    match parseLine parseP l with
    | some e => cargarGo parseP ls (dictInsert e.1 e.2 acc)
    | none => .error .valueError

/-- cargar_inventario (Manipulación.py lines 41-50), as run by the
constructor on `self.productos = {}`: absent file ⇒ empty mapping;
unreadable file ⇒ `PermissionError` caught and printed, empty mapping;
otherwise parse the lines, raising `ValueError` on the first malformed
one.  The result is the mapping held by the constructed store. -/
def cargar_inventario (parseP : PyStr → Option P) (file : Option PyStr)
    (readable : Bool) : Except PyErr (List (PyStr × Producto P)) :=
  match file with
  | none => .ok []
  | some s => if readable then cargarGo parseP (fileLines s) [] else .ok []

/-- agregar_producto (Manipulación.py lines 61-67). -/
def agregar_producto (renderP : P → PyStr) (p : Producto P)
    (prods : List (PyStr × Producto P)) (fs : FS1) :
    Bool × List (PyStr × Producto P) × FS1 :=
  if hasKey p.id prods then (false, prods, fs)
  else
    let ps := dictInsert p.id p prods
    (true, ps, guardar_inventario renderP ps fs)

/-- eliminar_producto (Manipulación.py lines 69-75). -/
def eliminar_producto (renderP : P → PyStr) (k : PyStr)
    (prods : List (PyStr × Producto P)) (fs : FS1) :
    Bool × List (PyStr × Producto P) × FS1 :=
  if hasKey k prods then
    let ps := dictErase k prods
    (true, ps, guardar_inventario renderP ps fs)
  else (false, prods, fs)

/-- actualizar_producto (Manipulación.py lines 77-90). -/
def actualizar_producto (renderP : P → PyStr) (k : PyStr)
    (c? : Option Int) (pr? : Option P)
    (prods : List (PyStr × Producto P)) (fs : FS1) :
    Bool × List (PyStr × Producto P) × FS1 :=
  if hasKey k prods then
    let ps := dictModify k (updateProd c? pr?) prods
    (true, ps, guardar_inventario renderP ps fs)
  else (false, prods, fs)

/-- buscar_por_id (Manipulación.py lines 92-94). -/
def buscar_por_id (k : PyStr) (prods : List (PyStr × Producto P)) :
    Option (Producto P) :=
  dictLookup k prods

/-- buscar_por_nombre (Manipulación.py lines 96-99). -/
def buscar_por_nombre (s : PyStr) (prods : List (PyStr × Producto P)) :
    List (Producto P) :=
  (dictValues prods).filter (fun p => pyIn (pyLower s) (pyLower p.nombre))

/-- obtener_todos (Manipulación.py lines 101-103). -/
def obtener_todos (prods : List (PyStr × Producto P)) : List (Producto P) :=
  dictValues prods

end Manipulacion

/-- JSON values, parametric in the numeric type carried by the `precio`
field (the trusted `json` library maps Python values to/from these
exactly). -/
inductive MJson (P : Type) where
  | jstr (s : PyStr)
  | jint (n : Int)
  | jnum (x : P)
  | jobj (entries : List (PyStr × MJson P))

namespace Manipulacion1

/-- Key `'id'`. -/
def keyId : PyStr := ("id").data

/-- Key `'nombre'`. -/
def keyNombre : PyStr := ("nombre").data

/-- Key `'cantidad'`. -/
def keyCantidad : PyStr := ("cantidad").data

/-- Key `'precio'`. -/
def keyPrecio : PyStr := ("precio").data

/-- Producto.to_dict (Manipulación1.py lines 16-23). -/
def to_dict (p : Producto P) : MJson P :=
  MJson.jobj [(keyId, MJson.jstr p.id), (keyNombre, MJson.jstr p.nombre),
    (keyCantidad, MJson.jint p.cantidad), (keyPrecio, MJson.jnum p.precio)]

/-- Producto.from_dict (Manipulación1.py lines 25-28): reads the four
keys; a missing key raises `KeyError` (modelled as `none`, which the
caller's broad `except` turns into an empty store). -/
def from_dict (j : MJson P) : Option (Producto P) :=
  match j with
  | MJson.jobj es =>
    match dictLookup keyId es, dictLookup keyNombre es,
        dictLookup keyCantidad es, dictLookup keyPrecio es with
    | some (MJson.jstr i), some (MJson.jstr n), some (MJson.jint c),
        some (MJson.jnum x) => some (Producto.mk i n c x)
    | _, _, _, _ => none
  | _ => none

/-- The JSON value written by `json.dump({k: v.to_dict() ...})`
(Manipulación1.py line 61). -/
def toJsonFile (prods : List (PyStr × Producto P)) : MJson P :=
  MJson.jobj (prods.map (fun e => (e.1, to_dict e.2)))

/-- The entries of the dict comprehension
`{k: Producto.from_dict(v) for k, v in data.items()}` (line 44); any
entry raising makes the whole comprehension raise (`none`). -/
def decodeEntries : List (PyStr × MJson P) →
    Option (List (PyStr × Producto P))
  | [] => some []
  | e :: t =>
    match from_dict e.2, decodeEntries t with
    | some p, some r => some ((e.1, p) :: r)
    | _, _ => none

/-- Decoding a whole JSON file value into a productos dict: `data` must
be a JSON object (otherwise `.items()` raises) and every value must
decode; the dict is built by successive assignment. -/
def decodeItems (j : MJson P) : Option (List (PyStr × Producto P)) :=
  match j with
  | MJson.jobj es =>
    (decodeEntries es).map
      (fun l => l.foldl (fun d kv => dictInsert kv.1 kv.2 d) [])
  | _ => none

/-- The possible outcomes of `os.path.exists` + `open` + `json.load`
when loading (Manipulación1.py lines 41-43): file absent; read succeeds
with JSON value `j`; file present but not valid JSON; read forbidden
(`PermissionError`); any other read failure. -/
inductive ReadRes (P : Type) where
  | absent
  | good (j : MJson P)
  | malformed
  | permissionDenied
  | otherFail

/-- cargar_inventario (Manipulación1.py lines 38-54), as run by the
constructor on `self.productos = {}`: absent / malformed / other
failures degrade to an empty mapping; a `PermissionError` is printed and
re-raised (line 49); a loaded JSON value whose decoding raises hits the
broad `except Exception` and yields an empty mapping.  The result is the
mapping held by the constructed store. -/
def cargar_inventario : ReadRes P → Except PyErr (List (PyStr × Producto P))
  | ReadRes.absent => .ok []
  | ReadRes.good j =>
    match decodeItems j with
    | some m => .ok m
    | none => .ok []
  | ReadRes.malformed => .ok []
  | ReadRes.permissionDenied => .error .permissionError
  | ReadRes.otherFail => .ok []

/-- The backing file of the JSON variant (`self.archivo` and the sibling
`self.archivo + '.tmp'`) plus whether writing is permitted. -/
structure FS2 (P : Type) where
  dest : Option (MJson P)
  tmp : Option (MJson P)
  writable : Bool

/-- guardar_inventario (Manipulación1.py lines 56-82): write the whole
mapping to the temp file, remove the destination if present, rename the
temp file onto it.  On failure (modelled at the `open(temp_file, 'w')`
step) the temp file is cleaned up best-effort and the exception is
re-raised.  Returns the raised exception (if any) and the resulting
files. -/
def guardar_inventario (prods : List (PyStr × Producto P)) (fs : FS2 P) :
    Option PyErr × FS2 P :=
  if fs.writable then
    (none, FS2.mk (some (toJsonFile prods)) none fs.writable)
  else
    (some .permissionError, FS2.mk fs.dest none fs.writable)

/-- The successful save sequence step by step (Manipulación1.py lines
60-66): state of the files after the first `k` of the three steps
(write temp, remove destination, rename temp onto destination) have
completed. -/
def guardarSteps (prods : List (PyStr × Producto P)) (fs : FS2 P) :
    Nat → FS2 P
  | 0 => fs
  | 1 => FS2.mk fs.dest (some (toJsonFile prods)) fs.writable
  | 2 => FS2.mk none (some (toJsonFile prods)) fs.writable
  | _ + 3 => FS2.mk (some (toJsonFile prods)) none fs.writable

/-- agregar_producto (Manipulación1.py lines 85-95): the whole body sits
in `try ... except Exception: return False`, so a failing save is caught
and reported as `False`; nothing ever propagates. -/
def agregar_producto (p : Producto P) (prods : List (PyStr × Producto P))
    (fs : FS2 P) :
    Except PyErr (Bool × List (PyStr × Producto P) × FS2 P) :=
  if hasKey p.id prods then .ok (false, prods, fs)
  else
    let ps := dictInsert p.id p prods
    match guardar_inventario ps fs with
    | (none, fs2) => .ok (true, ps, fs2)
    | (some _, fs2) => .ok (false, ps, fs2)

/-- eliminar_producto (Manipulación1.py lines 97-107). -/
def eliminar_producto (k : PyStr) (prods : List (PyStr × Producto P))
    (fs : FS2 P) :
    Except PyErr (Bool × List (PyStr × Producto P) × FS2 P) :=
  if hasKey k prods then
    let ps := dictErase k prods
    match guardar_inventario ps fs with
    | (none, fs2) => .ok (true, ps, fs2)
    | (some _, fs2) => .ok (false, ps, fs2)
  else .ok (false, prods, fs)

/-- actualizar_producto (Manipulación1.py lines 109-125). -/
def actualizar_producto (k : PyStr) (c? : Option Int) (pr? : Option P)
    (prods : List (PyStr × Producto P)) (fs : FS2 P) :
    Except PyErr (Bool × List (PyStr × Producto P) × FS2 P) :=
  if hasKey k prods then
    let ps := dictModify k (updateProd c? pr?) prods
    match guardar_inventario ps fs with
    | (none, fs2) => .ok (true, ps, fs2)
    | (some _, fs2) => .ok (false, ps, fs2)
  else .ok (false, prods, fs)

/-- buscar_por_id (Manipulación1.py lines 127-128). -/
def buscar_por_id (k : PyStr) (prods : List (PyStr × Producto P)) :
    Option (Producto P) :=
  dictLookup k prods

/-- buscar_por_nombre (Manipulación1.py lines 130-132). -/
def buscar_por_nombre (s : PyStr) (prods : List (PyStr × Producto P)) :
    List (Producto P) :=
  (dictValues prods).filter (fun p => pyIn (pyLower s) (pyLower p.nombre))

/-- obtener_todos (Manipulación1.py lines 134-135). -/
def obtener_todos (prods : List (PyStr × Producto P)) : List (Producto P) :=
  dictValues prods

end Manipulacion1

/-- The store invariant: every key of the productos dict is the id of
the record it maps to. -/
abbrev invHolds (prods : List (PyStr × Producto P)) : Prop :=
  ∀ e ∈ prods, e.1 = e.2.id

/-- A rendering function (Python `str` on the price type) whose output
contains no whitespace, `'|'` or newline characters — true of Python's
`repr` of floats. -/
def goodRender (renderP : P → PyStr) : Prop :=
  ∀ x : P, ∀ c ∈ renderP x, isPySpace c = false ∧ c ≠ '|' ∧ c ≠ '\n'

/-- A render/parse pair that round-trips — true of Python's
`float(str(x))` on floats. -/
def goodCodec (renderP : P → PyStr) (parseP : PyStr → Option P) : Prop :=
  ∀ x : P, parseP (renderP x) = some x

/-- A field value free of the delimiter and of newlines. -/
abbrev cleanField (l : PyStr) : Prop := ∀ c ∈ l, c ≠ '|' ∧ c ≠ '\n'

/-- A record the delimited codec can round-trip: id and name contain no
`'|'` or newline, and the id does not begin with whitespace (which
`strip()` would discard). -/
abbrev cleanRecord (p : Producto P) : Prop :=
  cleanField p.id ∧ cleanField p.nombre ∧
    isPySpace (p.id.headD '|') = false

theorem isDigitChar_bounds {c : Char} (h : isDigitChar c = true) :
    48 ≤ c.toNat ∧ c.toNat ≤ 57 := by
  simp only [isDigitChar, Bool.and_eq_true, decide_eq_true_eq] at h
  exact h

theorem digit_props {c : Char} (h : isDigitChar c = true) :
    isPySpace c = false ∧ c ≠ '|' ∧ c ≠ '\n' ∧ c ≠ '-' ∧ c ≠ '+' := by
  obtain ⟨h1, h2⟩ := isDigitChar_bounds h
  refine ⟨?_, ?_, ?_, ?_, ?_⟩
  · simp only [isPySpace, Bool.or_eq_false_iff, decide_eq_false_iff_not]
    omega
  · intro hc
    have : ('|' : Char).toNat = 124 := rfl
    rw [hc, this] at h2
    omega
  · intro hc
    have : ('\n' : Char).toNat = 10 := rfl
    rw [hc, this] at h1
    omega
  · intro hc
    have : ('-' : Char).toNat = 45 := rfl
    rw [hc, this] at h1
    omega
  · intro hc
    have : ('+' : Char).toNat = 43 := rfl
    rw [hc, this] at h1
    omega

theorem dval_digitChar {d : Nat} (h : d < 10) : dval (digitChar d) = d := by
  interval_cases d <;> rfl

theorem isDigitChar_digitChar {d : Nat} (h : d < 10) :
    isDigitChar (digitChar d) = true := by
  interval_cases d <;> rfl

theorem natRenderAux_spec :
    ∀ fuel n, n < fuel →
      natRenderAux fuel n ≠ [] ∧
      (∀ c ∈ natRenderAux fuel n, isDigitChar c = true) ∧
      (natRenderAux fuel n).foldl (fun a c => 10 * a + dval c) 0 = n := by
  intro fuel
  induction fuel with
  | zero => omega
  | succ m ih =>
    intro n hn
    by_cases h10 : n < 10
    · refine ⟨by simp [natRenderAux, h10], ?_, ?_⟩
      · intro c hc
        simp only [natRenderAux, if_pos h10, List.mem_singleton] at hc
        rw [hc]
        exact isDigitChar_digitChar h10
      · simp [natRenderAux, if_pos h10, dval_digitChar h10]
    · have hdiv : n / 10 < m := by
        have : n / 10 < n := Nat.div_lt_self (by omega) (by omega)
        omega
      obtain ⟨ihne, ihdig, ihval⟩ := ih (n / 10) hdiv
      simp only [natRenderAux, if_neg h10]
      refine ⟨by simp, ?_, ?_⟩
      · intro c hc
        rw [List.mem_append] at hc
        rcases hc with hc | hc
        · exact ihdig c hc
        · rw [List.mem_singleton] at hc
          rw [hc]
          exact isDigitChar_digitChar (Nat.mod_lt _ (by omega))
      · rw [List.foldl_append, ihval]
        simp only [List.foldl_cons, List.foldl_nil]
        rw [dval_digitChar (Nat.mod_lt _ (by omega))]
        omega

theorem natRender_ne_nil (n : Nat) : natRender n ≠ [] :=
  (natRenderAux_spec (n + 1) n (by omega)).1

theorem natRender_all_digits (n : Nat) :
    ∀ c ∈ natRender n, isDigitChar c = true :=
  (natRenderAux_spec (n + 1) n (by omega)).2.1

theorem natParse_natRender (n : Nat) : natParse (natRender n) = some n := by
  obtain ⟨hne, hdig, hval⟩ := natRenderAux_spec (n + 1) n (by omega)
  unfold natRender
  have hempty : (natRenderAux (n + 1) n).isEmpty = false := by
    obtain ⟨c, cs, hc⟩ := List.exists_cons_of_ne_nil hne
    rw [hc]
    rfl
  have hall : (natRenderAux (n + 1) n).all isDigitChar = true :=
    List.all_eq_true.mpr hdig
  rw [natParse, if_pos (by rw [hempty, hall]; rfl)]
  rw [hval]

theorem headq_mem {l : PyStr} {c : Char} (h : l.head? = some c) : c ∈ l := by
  cases l with
  | nil => simp at h
  | cons a t =>
    simp only [List.head?_cons, Option.some.injEq] at h
    rw [← h]
    exact List.mem_cons_self a t

theorem dropWhile_eq_self_of_head {p : Char → Bool} {l : PyStr}
    (h : ∀ c, l.head? = some c → p c = false) : l.dropWhile p = l := by
  cases l with
  | nil => rfl
  | cons a t =>
    have := h a rfl
    simp [List.dropWhile_cons, this]

theorem pstrip_eq_self {l : PyStr}
    (h1 : ∀ c, l.head? = some c → isPySpace c = false)
    (h2 : ∀ c, l.reverse.head? = some c → isPySpace c = false) :
    pstrip l = l := by
  unfold pstrip
  rw [dropWhile_eq_self_of_head h1, dropWhile_eq_self_of_head h2,
    List.reverse_reverse]

theorem pstrip_eq_self_of_no_space {l : PyStr}
    (h : ∀ c ∈ l, isPySpace c = false) : pstrip l = l :=
  pstrip_eq_self (fun c hc => h c (headq_mem hc))
    (fun c hc => h c (List.mem_reverse.mp (headq_mem hc)))

theorem intRender_chars (i : Int) :
    ∀ c ∈ intRender i, isPySpace c = false ∧ c ≠ '|' ∧ c ≠ '\n' := by
  intro c hc
  unfold intRender at hc
  by_cases hi : i < 0
  · rw [if_pos hi, List.mem_cons] at hc
    rcases hc with hc | hc
    · rw [hc]
      refine ⟨rfl, ?_, ?_⟩ <;> decide
    · have := digit_props (natRender_all_digits _ c hc)
      exact ⟨this.1, this.2.1, this.2.2.1⟩
  · rw [if_neg hi] at hc
    have := digit_props (natRender_all_digits _ c hc)
    exact ⟨this.1, this.2.1, this.2.2.1⟩

theorem intParse_intRender (i : Int) : intParse (intRender i) = some i := by
  have hstrip : pstrip (intRender i) = intRender i :=
    pstrip_eq_self_of_no_space (fun c hc => (intRender_chars i c hc).1)
  unfold intParse
  rw [hstrip]
  by_cases hi : i < 0
  · rw [show intRender i = '-' :: natRender i.natAbs from by
      unfold intRender; rw [if_pos hi]]
    rw [if_pos (by rfl)]
    simp only [List.tail_cons, natParse_natRender, Option.some.injEq]
    omega
  · rw [show intRender i = natRender i.natAbs from by
      unfold intRender; rw [if_neg hi]]
    obtain ⟨c, cs, hc⟩ := List.exists_cons_of_ne_nil (natRender_ne_nil i.natAbs)
    have hdig := natRender_all_digits i.natAbs c (by rw [hc]; exact List.mem_cons_self c cs)
    have hprops := digit_props hdig
    rw [hc]
    rw [if_neg (by
      simp only [List.head?_cons, Option.some.injEq]
      exact hprops.2.2.2.1)]
    rw [if_neg (by
      simp only [List.head?_cons, Option.some.injEq]
      exact hprops.2.2.2.2)]
    rw [← hc, natParse_natRender]
    simp only [Option.some.injEq]
    omega

theorem splitOnChar_ne_nil (c : Char) (l : PyStr) : splitOnChar c l ≠ [] := by
  cases l with
  | nil => simp [splitOnChar]
  | cons x xs =>
    simp only [splitOnChar]
    cases h : splitOnChar c xs with
    | nil => simp
    | cons y ys =>
      dsimp only
      split <;> simp

theorem splitOnChar_no_sep (c : Char) (l : PyStr) (h : ∀ a ∈ l, a ≠ c) :
    splitOnChar c l = [l] := by
  induction l with
  | nil => rfl
  | cons x xs ih =>
    have hx : x ≠ c := h x (List.mem_cons_self x xs)
    have ih2 := ih (fun a ha => h a (List.mem_cons_of_mem x ha))
    simp only [splitOnChar, ih2]
    simp [hx]

theorem splitOnChar_sep_append (c : Char) (l₁ l₂ : PyStr)
    (h : ∀ a ∈ l₁, a ≠ c) :
    splitOnChar c (l₁ ++ c :: l₂) = l₁ :: splitOnChar c l₂ := by
  induction l₁ with
  | nil =>
    simp only [List.nil_append, splitOnChar]
    cases hs : splitOnChar c l₂ with
    | nil => exact absurd hs (splitOnChar_ne_nil c l₂)
    | cons y ys => simp
  | cons x xs ih =>
    have hx : x ≠ c := h x (List.mem_cons_self x xs)
    have ih2 := ih (fun a ha => h a (List.mem_cons_of_mem x ha))
    simp only [List.cons_append, splitOnChar, List.append_eq]
    rw [ih2]
    simp [hx]

theorem splitOnChar_joinlines (bs : List PyStr)
    (h : ∀ b ∈ bs, ∀ a ∈ b, a ≠ '\n') :
    splitOnChar '\n' (List.flatten (bs.map (· ++ ['\n']))) = bs ++ [[]] := by
  induction bs with
  | nil => rfl
  | cons b rest ih =>
    have hb := h b (List.mem_cons_self b rest)
    have ih2 := ih (fun x hx => h x (List.mem_cons_of_mem b hx))
    simp only [List.map_cons, List.flatten_cons]
    rw [List.append_assoc, List.singleton_append,
      splitOnChar_sep_append _ _ _ hb, ih2]
    rfl

theorem fileLines_joinlines (bs : List PyStr)
    (h : ∀ b ∈ bs, ∀ a ∈ b, a ≠ '\n') :
    fileLines (List.flatten (bs.map (· ++ ['\n']))) = bs := by
  unfold fileLines
  rw [splitOnChar_joinlines bs h]
  rw [List.getLast?_concat, if_pos rfl]
  exact List.dropLast_concat ..

theorem pyStartsWith_iff (a b : PyStr) :
    pyStartsWith a b = true ↔ ∃ r, b = a ++ r := by
  induction a generalizing b with
  | nil =>
    simp only [pyStartsWith, List.nil_append, true_iff]
    exact ⟨b, rfl⟩
  | cons x xs ih =>
    cases b with
    | nil =>
      simp only [pyStartsWith, List.cons_append]
      constructor
      · intro h
        exact absurd h (by simp)
      · rintro ⟨r, hr⟩
        exact absurd hr (by simp)
    | cons y ys =>
      simp only [pyStartsWith, Bool.and_eq_true, decide_eq_true_eq, ih,
        List.cons_append]
      constructor
      · rintro ⟨h1, r, h2⟩
        exact ⟨r, by rw [h1, h2]⟩
      · rintro ⟨r, hr⟩
        rw [List.cons_eq_cons] at hr
        exact ⟨hr.1.symm, r, hr.2⟩

theorem pyIn_iff (a b : PyStr) :
    pyIn a b = true ↔ ∃ l r, b = l ++ (a ++ r) := by
  induction b with
  | nil =>
    simp only [pyIn, pyStartsWith_iff]
    constructor
    · rintro ⟨r, hr⟩
      exact ⟨[], r, by rw [List.nil_append]; exact hr⟩
    · rintro ⟨l, r, hr⟩
      have h1 := List.append_eq_nil.mp hr.symm
      have h2 := List.append_eq_nil.mp h1.2
      exact ⟨r, by rw [h2.1, h2.2]; rfl⟩
  | cons c bs ih =>
    simp only [pyIn, List.tail_cons, Bool.or_eq_true, pyStartsWith_iff, ih]
    constructor
    · rintro (⟨r, hr⟩ | ⟨l, r, hr⟩)
      · exact ⟨[], r, by simp [hr]⟩
      · exact ⟨c :: l, r, by simp [hr]⟩
    · rintro ⟨l, r, hr⟩
      cases l with
      | nil =>
        exact Or.inl ⟨r, by simpa using hr⟩
      | cons x xs =>
        rw [List.cons_append, List.cons_eq_cons] at hr
        exact Or.inr ⟨xs, r, hr.2⟩

theorem dictLookup_insert_self (k : PyStr) (v : β) (l : List (PyStr × β)) :
    dictLookup k (dictInsert k v l) = some v := by
  induction l with
  | nil => simp [dictInsert, dictLookup]
  | cons e t ih =>
    by_cases h : e.1 = k
    · simp [dictInsert, h, dictLookup]
    · simp [dictInsert, h, dictLookup, ih]

theorem dictLookup_insert_ne (k2 k : PyStr) (v : β) (l : List (PyStr × β))
    (h : k2 ≠ k) : dictLookup k2 (dictInsert k v l) = dictLookup k2 l := by
  have hk : ¬(k = k2) := fun hc => h hc.symm
  induction l with
  | nil => simp [dictLookup, dictInsert, hk]
  | cons e t ih =>
    by_cases he : e.1 = k
    · have he2 : ¬(e.1 = k2) := fun hc => hk (he ▸ hc)
      rw [show dictInsert k v (e :: t) = (k, v) :: t from by
        rw [dictInsert, if_pos he]]
      simp [dictLookup, hk, he2]
    · rw [show dictInsert k v (e :: t) = e :: dictInsert k v t from by
        rw [dictInsert, if_neg he]]
      by_cases he2 : e.1 = k2
      · rw [dictLookup, if_pos he2, dictLookup, if_pos he2]
      · rw [dictLookup, if_neg he2, dictLookup, if_neg he2]
        exact ih

theorem dictInsert_fresh (k : PyStr) (v : β) (l : List (PyStr × β))
    (h : dictLookup k l = none) : dictInsert k v l = l ++ [(k, v)] := by
  induction l with
  | nil => rfl
  | cons e t ih =>
    by_cases he : e.1 = k
    · rw [dictLookup, if_pos he] at h
      exact absurd h (by simp)
    · rw [dictLookup, if_neg he] at h
      simp [dictInsert, he, ih h]

theorem dictLookup_append_of_none (k : PyStr) (l₁ l₂ : List (PyStr × β))
    (h : dictLookup k l₁ = none) :
    dictLookup k (l₁ ++ l₂) = dictLookup k l₂ := by
  induction l₁ with
  | nil => rfl
  | cons e t ih =>
    by_cases he : e.1 = k
    · rw [dictLookup, if_pos he] at h
      exact absurd h (by simp)
    · rw [dictLookup, if_neg he] at h
      rw [List.cons_append, dictLookup, if_neg he]
      exact ih h

theorem dictLookup_none_of_not_mem_keys (k : PyStr) (l : List (PyStr × β))
    (h : k ∉ l.map Prod.fst) : dictLookup k l = none := by
  induction l with
  | nil => rfl
  | cons e t ih =>
    rw [List.map_cons, List.mem_cons] at h
    push_neg at h
    rw [dictLookup, if_neg (fun hc => h.1 hc.symm)]
    exact ih h.2

theorem foldl_dictInsert_fresh (l : List (PyStr × β)) :
    ∀ acc, (l.map Prod.fst).Nodup →
      (∀ e ∈ l, dictLookup e.1 acc = none) →
      l.foldl (fun d kv => dictInsert kv.1 kv.2 d) acc = acc ++ l := by
  induction l with
  | nil => intro acc _ _; simp
  | cons e t ih =>
    intro acc hnd hfresh
    rw [List.map_cons, List.nodup_cons] at hnd
    rw [List.foldl_cons, dictInsert_fresh _ _ _ (hfresh e (List.mem_cons_self e t))]
    rw [ih (acc ++ [e]) hnd.2 ?_]
    · rw [List.append_assoc]
      rfl
    · intro x hx
      rw [dictLookup_append_of_none _ _ _ (hfresh x (List.mem_cons_of_mem e hx))]
      rw [dictLookup, if_neg ?_, dictLookup]
      intro hc
      exact hnd.1 (hc ▸ List.mem_map_of_mem Prod.fst hx)

theorem dictLookup_modify_self (k : PyStr) (f : β → β) (l : List (PyStr × β)) :
    dictLookup k (dictModify k f l) = (dictLookup k l).map f := by
  induction l with
  | nil => rfl
  | cons e t ih =>
    by_cases he : e.1 = k
    · simp [dictModify, he, dictLookup]
    · simp only [dictModify, List.map_cons, if_neg he]
      rw [dictLookup, if_neg he, dictLookup, if_neg he]
      exact ih

theorem dictLookup_modify_ne (k2 k : PyStr) (f : β → β) (l : List (PyStr × β))
    (h : k2 ≠ k) : dictLookup k2 (dictModify k f l) = dictLookup k2 l := by
  induction l with
  | nil => rfl
  | cons e t ih =>
    by_cases he : e.1 = k
    · have he2 : ¬(e.1 = k2) := fun hc => h ((hc ▸ he) : k2 = k)
      simp only [dictModify, List.map_cons, if_pos he]
      rw [dictLookup, if_neg he2, dictLookup, if_neg he2]
      exact ih
    · by_cases he2 : e.1 = k2
      · simp only [dictModify, List.map_cons, if_neg he]
        rw [dictLookup, if_pos he2, dictLookup, if_pos he2]
      · simp only [dictModify, List.map_cons, if_neg he]
        rw [dictLookup, if_neg he2, dictLookup, if_neg he2]
        exact ih

theorem dictErase_subset (k : PyStr) (l : List (PyStr × β)) :
    ∀ e ∈ dictErase k l, e ∈ l := by
  induction l with
  | nil => simp [dictErase]
  | cons x t ih =>
    intro e he
    rw [dictErase] at he
    by_cases hx : x.1 = k
    · rw [if_pos hx] at he
      exact List.mem_cons_of_mem x he
    · rw [if_neg hx, List.mem_cons] at he
      rcases he with he | he
      · exact he ▸ List.mem_cons_self x t
      · exact List.mem_cons_of_mem x (ih e he)

theorem hasKey_false_iff (k : PyStr) (l : List (PyStr × β)) :
    hasKey k l = false ↔ dictLookup k l = none := by
  unfold hasKey
  cases dictLookup k l <;> simp

theorem hasKey_true_iff (k : PyStr) (l : List (PyStr × β)) :
    hasKey k l = true ↔ ∃ v, dictLookup k l = some v := by
  unfold hasKey
  cases dictLookup k l <;> simp

theorem invHolds_insert {prods : List (PyStr × Producto P)} (p : Producto P)
    (h : invHolds prods) : invHolds (dictInsert p.id p prods) := by
  induction prods with
  | nil =>
    intro e he
    rw [dictInsert, List.mem_singleton] at he
    rw [he]
  | cons x t ih =>
    intro e he
    rw [dictInsert] at he
    by_cases hx : x.1 = p.id
    · rw [if_pos hx, List.mem_cons] at he
      rcases he with he | he
      · rw [he]
      · exact h e (List.mem_cons_of_mem x he)
    · rw [if_neg hx, List.mem_cons] at he
      rcases he with he | he
      · exact he ▸ h x (List.mem_cons_self x t)
      · exact ih (fun y hy => h y (List.mem_cons_of_mem x hy)) e he

theorem invHolds_erase {prods : List (PyStr × Producto P)} (k : PyStr)
    (h : invHolds prods) : invHolds (dictErase k prods) :=
  fun e he => h e (dictErase_subset k prods e he)

theorem invHolds_modify {prods : List (PyStr × Producto P)} (k : PyStr)
    {f : Producto P → Producto P} (hf : ∀ r, (f r).id = r.id)
    (h : invHolds prods) : invHolds (dictModify k f prods) := by
  intro e he
  rw [dictModify, List.mem_map] at he
  obtain ⟨x, hx, hxe⟩ := he
  by_cases hk : x.1 = k
  · rw [if_pos hk] at hxe
    rw [← hxe]
    show x.1 = (f x.2).id
    rw [hf x.2]
    exact h x hx
  · rw [if_neg hk] at hxe
    exact hxe ▸ h x hx

theorem updateProd_id (c? : Option Int) (pr? : Option P) (r : Producto P) :
    (updateProd c? pr? r).id = r.id := rfl

theorem headq_append_cons (xs : PyStr) (y : Char) (ys : PyStr) :
    (xs ++ y :: ys).head? = some (xs.headD y) := by
  cases xs <;> simp

theorem reverse_append_cons (x : PyStr) (c : Char) (y : PyStr) :
    (x ++ c :: y).reverse = y.reverse ++ c :: x.reverse := by
  rw [List.reverse_append, List.reverse_cons, List.append_assoc,
    List.singleton_append]

namespace Manipulacion

theorem lineBody_no_nl {renderP : P → PyStr} {p : Producto P}
    (hr : goodRender renderP) (hc : cleanRecord p) :
    ∀ a ∈ lineBody renderP p, a ≠ '\n' := by
  intro a ha
  unfold lineBody at ha
  rw [List.mem_append, List.mem_cons] at ha
  rcases ha with ha | ha | ha
  · exact (hc.1 a ha).2
  · rw [ha]; decide
  · rw [List.mem_append, List.mem_cons] at ha
    rcases ha with ha | ha | ha
    · exact (hc.2.1 a ha).2
    · rw [ha]; decide
    · rw [List.mem_append, List.mem_cons] at ha
      rcases ha with ha | ha | ha
      · exact (intRender_chars _ a ha).2.2
      · rw [ha]; decide
      · exact (hr _ a ha).2.2

theorem pstrip_lineBody {renderP : P → PyStr} {p : Producto P}
    (hr : goodRender renderP) (hc : cleanRecord p) :
    pstrip (lineBody renderP p) = lineBody renderP p := by
  apply pstrip_eq_self
  · intro c hcc
    unfold lineBody at hcc
    rw [headq_append_cons, Option.some.injEq] at hcc
    rw [← hcc]
    exact hc.2.2
  · intro c hcc
    unfold lineBody at hcc
    rw [reverse_append_cons, reverse_append_cons, reverse_append_cons] at hcc
    rw [headq_append_cons, Option.some.injEq] at hcc
    cases hd : (renderP p.precio).reverse with
    | nil =>
      rw [hd] at hcc
      rw [← hcc]
      rfl
    | cons a t =>
      rw [hd] at hcc
      rw [← hcc]
      have ha : a ∈ renderP p.precio := by
        rw [← List.mem_reverse, hd]
        exact List.mem_cons_self a t
      exact (hr _ a ha).1

theorem split_lineBody {renderP : P → PyStr} {p : Producto P}
    (hr : goodRender renderP) (hc : cleanRecord p) :
    splitOnChar '|' (lineBody renderP p) =
      [p.id, p.nombre, intRender p.cantidad, renderP p.precio] := by
  unfold lineBody
  rw [splitOnChar_sep_append _ _ _ (fun a ha => (hc.1 a ha).1)]
  rw [splitOnChar_sep_append _ _ _ (fun a ha => (hc.2.1 a ha).1)]
  rw [splitOnChar_sep_append _ _ _ (fun a ha => (intRender_chars _ a ha).2.1)]
  rw [splitOnChar_no_sep _ _ (fun a ha => (hr _ a ha).2.1)]

theorem parseLine_lineBody {renderP : P → PyStr} {parseP : PyStr → Option P}
    {p : Producto P} (hcodec : goodCodec renderP parseP)
    (hr : goodRender renderP) (hc : cleanRecord p) :
    parseLine parseP (lineBody renderP p) = some (p.id, p) := by
  unfold parseLine
  rw [pstrip_lineBody hr hc, split_lineBody hr hc]
  dsimp only
  rw [intParse_intRender, hcodec]

theorem cargarGo_clean {renderP : P → PyStr} {parseP : PyStr → Option P}
    (hcodec : goodCodec renderP parseP) (hr : goodRender renderP) :
    ∀ (prods : List (PyStr × Producto P)) (acc : List (PyStr × Producto P)),
      (∀ e ∈ prods, cleanRecord e.2) →
      (∀ e ∈ prods, e.1 = e.2.id) →
      (prods.map Prod.fst).Nodup →
      (∀ e ∈ prods, dictLookup e.1 acc = none) →
      cargarGo parseP (prods.map (fun e => lineBody renderP e.2)) acc =
        .ok (acc ++ prods) := by
  intro prods
  induction prods with
  | nil => intro acc _ _ _ _; simp [cargarGo]
  | cons e t ih =>
    intro acc hclean hids hnd hfresh
    rw [List.map_cons, cargarGo,
      parseLine_lineBody hcodec hr (hclean e (List.mem_cons_self e t))]
    have hid : e.1 = e.2.id := hids e (List.mem_cons_self e t)
    rw [List.map_cons, List.nodup_cons] at hnd
    have hins : dictInsert e.2.id e.2 acc = acc ++ [e] := by
      rw [← hid, dictInsert_fresh _ _ _ (hfresh e (List.mem_cons_self e t))]
    dsimp only
    rw [hins]
    rw [ih (acc ++ [e]) (fun x hx => hclean x (List.mem_cons_of_mem e hx))
      (fun x hx => hids x (List.mem_cons_of_mem e hx)) hnd.2 ?_]
    · rw [List.append_assoc]
      rfl
    · intro x hx
      rw [dictLookup_append_of_none _ _ _
        (hfresh x (List.mem_cons_of_mem e hx))]
      rw [dictLookup, if_neg ?_, dictLookup]
      intro hcontra
      exact hnd.1 (hcontra ▸ List.mem_map_of_mem Prod.fst hx)

theorem cargar_serialize_delim {renderP : P → PyStr} {parseP : PyStr → Option P}
    (hcodec : goodCodec renderP parseP) (hr : goodRender renderP)
    (prods : List (PyStr × Producto P))
    (hclean : ∀ e ∈ prods, cleanRecord e.2)
    (hids : ∀ e ∈ prods, e.1 = e.2.id)
    (hnd : (prods.map Prod.fst).Nodup) :
    cargar_inventario parseP (some (serializeDelim renderP prods)) true =
      .ok prods := by
  have hmap : prods.map (fun e => lineBody renderP e.2 ++ ['\n']) =
      (prods.map (fun e => lineBody renderP e.2)).map (· ++ ['\n']) := by
    simp
  unfold cargar_inventario serializeDelim
  rw [hmap]
  dsimp only
  rw [if_pos rfl]
  rw [fileLines_joinlines _ (by
    intro b hb
    rw [List.mem_map] at hb
    obtain ⟨x, hx, hxb⟩ := hb
    rw [← hxb]
    exact lineBody_no_nl hr (hclean x hx))]
  rw [cargarGo_clean hcodec hr prods [] hclean hids hnd
    (fun x _ => by rw [dictLookup])]
  rw [List.nil_append]

end Manipulacion

namespace Manipulacion1

theorem from_dict_to_dict (p : Producto P) : from_dict (to_dict p) = some p :=
  rfl

theorem decodeEntries_map (prods : List (PyStr × Producto P)) :
    decodeEntries (prods.map (fun e => (e.1, to_dict e.2))) = some prods := by
  induction prods with
  | nil => rfl
  | cons e t ih =>
    rw [List.map_cons, decodeEntries]
    dsimp only
    rw [from_dict_to_dict, ih]

theorem decodeItems_toJsonFile (prods : List (PyStr × Producto P))
    (hnd : (prods.map Prod.fst).Nodup) :
    decodeItems (toJsonFile prods) = some prods := by
  unfold decodeItems toJsonFile
  dsimp only
  rw [decodeEntries_map]
  rw [Option.map_some']
  rw [foldl_dictInsert_fresh prods [] hnd (fun e _ => by rw [dictLookup])]
  rw [List.nil_append]

theorem guardar_eq_steps (prods : List (PyStr × Producto P)) (fs : FS2 P)
    (hw : fs.writable = true) :
    guardar_inventario prods fs = (none, guardarSteps prods fs 3) := by
  unfold guardar_inventario guardarSteps
  rw [if_pos hw]

end Manipulacion1

theorem natRender_goodRender : goodRender natRender := by
  intro x c hc
  have d := digit_props (natRender_all_digits x c hc)
  exact ⟨d.1, d.2.1, d.2.2.1⟩

theorem natParse_goodCodec : goodCodec natRender natParse :=
  fun x => natParse_natRender x

theorem pyIn_nil (b : PyStr) : pyIn [] b = true := by
  cases b <;> rfl

theorem hasKey_of_lookup_some {k : PyStr} {l : List (PyStr × β)} {v : β}
    (h : dictLookup k l = some v) : hasKey k l = true := by
  rw [hasKey, h]
  rfl

theorem hasKey_insert_self (k : PyStr) (v : β) (l : List (PyStr × β)) :
    hasKey k (dictInsert k v l) = true := by
  rw [hasKey, dictLookup_insert_self]
  rfl

namespace Manipulacion

theorem cargarGo_error {parseP : PyStr → Option P} :
    ∀ (goods : List PyStr) (bad : PyStr) (rest : List PyStr)
      (acc : List (PyStr × Producto P)),
      (∀ l ∈ goods, ∃ e, parseLine parseP l = some e) →
      parseLine parseP bad = none →
      cargarGo parseP (goods ++ bad :: rest) acc = .error .valueError := by
  intro goods
  induction goods with
  | nil =>
    intro bad rest acc _ hbad
    rw [List.nil_append, cargarGo, hbad]
  | cons g gs ih =>
    intro bad rest acc hgood hbad
    obtain ⟨e, he⟩ := hgood g (List.mem_cons_self g gs)
    rw [List.cons_append, cargarGo, he]
    exact ih bad rest _ (fun l hl => hgood l (List.mem_cons_of_mem g hl)) hbad

end Manipulacion

namespace Manipulacion1

theorem guardar_fail (prods : List (PyStr × Producto P)) (fs : FS2 P)
    (hw : fs.writable = false) :
    guardar_inventario prods fs =
      (some PyErr.permissionError, FS2.mk fs.dest none fs.writable) := by
  unfold guardar_inventario
  rw [if_neg (by rw [hw]; exact Bool.false_ne_true)]

theorem agregar_state (p : Producto P) (prods : List (PyStr × Producto P))
    (fs : FS2 P) (hp : hasKey p.id prods = false) :
    ∃ b fs2, agregar_producto p prods fs =
      .ok (b, dictInsert p.id p prods, fs2) := by
  unfold agregar_producto
  rw [if_neg (by rw [hp]; exact Bool.false_ne_true)]
  dsimp only
  cases hg : guardar_inventario (dictInsert p.id p prods) fs with
  | mk o fs3 =>
    cases o with
    | none => exact ⟨true, fs3, rfl⟩
    | some e => exact ⟨false, fs3, rfl⟩

theorem agregar_dup (p : Producto P) (prods : List (PyStr × Producto P))
    (fs : FS2 P) (hp : hasKey p.id prods = true) :
    agregar_producto p prods fs = .ok (false, prods, fs) := by
  unfold agregar_producto
  rw [if_pos hp]

theorem eliminar_state (k : PyStr) (prods : List (PyStr × Producto P))
    (fs : FS2 P) (hk : hasKey k prods = true) :
    ∃ b fs2, eliminar_producto k prods fs = .ok (b, dictErase k prods, fs2) := by
  unfold eliminar_producto
  rw [if_pos hk]
  dsimp only
  cases hg : guardar_inventario (dictErase k prods) fs with
  | mk o fs3 =>
    cases o with
    | none => exact ⟨true, fs3, rfl⟩
    | some e => exact ⟨false, fs3, rfl⟩

theorem eliminar_absent (k : PyStr) (prods : List (PyStr × Producto P))
    (fs : FS2 P) (hk : hasKey k prods = false) :
    eliminar_producto k prods fs = .ok (false, prods, fs) := by
  unfold eliminar_producto
  rw [if_neg (by rw [hk]; exact Bool.false_ne_true)]

theorem actualizar_state (k : PyStr) (c? : Option Int) (pr? : Option P)
    (prods : List (PyStr × Producto P)) (fs : FS2 P)
    (hk : hasKey k prods = true) :
    ∃ b fs2, actualizar_producto k c? pr? prods fs =
      .ok (b, dictModify k (updateProd c? pr?) prods, fs2) := by
  unfold actualizar_producto
  rw [if_pos hk]
  dsimp only
  cases hg : guardar_inventario (dictModify k (updateProd c? pr?) prods) fs with
  | mk o fs3 =>
    cases o with
    | none => exact ⟨true, fs3, rfl⟩
    | some e => exact ⟨false, fs3, rfl⟩

theorem actualizar_absent (k : PyStr) (c? : Option Int) (pr? : Option P)
    (prods : List (PyStr × Producto P)) (fs : FS2 P)
    (hk : hasKey k prods = false) :
    actualizar_producto k c? pr? prods fs = .ok (false, prods, fs) := by
  unfold actualizar_producto
  rw [if_neg (by rw [hk]; exact Bool.false_ne_true)]

end Manipulacion1

/-- C1: the round-trip claim as stated is false: for the delimited codec
a Record whose name contains the delimiter `'|'` serializes to a line
with five fields, so deserializing raises `ValueError` instead of
returning the original mapping (concrete input: one record with name
`"a|b"`). -/
theorem spec_c1_roundtrip_cex :
    Manipulacion.cargar_inventario natParse
      (some (Manipulacion.serializeDelim natRender
        [(("x1").data, Producto.mk ("x1").data ("a|b").data 3 (5 : Nat))]))
      true = Except.error PyErr.valueError ∧
    Except.error PyErr.valueError ≠
      (Except.ok [(("x1").data, Producto.mk ("x1").data ("a|b").data 3 (5 : Nat))] :
        Except PyErr (List (PyStr × Producto Nat))) :=
  ⟨rfl, fun h => Except.noConfusion h⟩

/-- C1 (amended): deserializing the result of serializing a mapping is
the identity field-for-field for the JSON codec on every mapping with
distinct keys; for the delimited codec it holds only under the cleanness
conditions the line format needs: the price codec round-trips and renders
no whitespace/`'|'`/newline (true of Python floats), every id and name is
free of `'|'` and newline, the id does not begin with whitespace, every
key equals its record's id, and keys are distinct.  A name containing
`'|'` or a newline breaks the delimited round trip (see the
counterexample). -/
theorem spec_c1_roundtrip :
    (∀ (P : Type) (prods : List (PyStr × Producto P)),
      (prods.map Prod.fst).Nodup →
      Manipulacion1.decodeItems (Manipulacion1.toJsonFile prods) = some prods) ∧
    (∀ (P : Type) (renderP : P → PyStr) (parseP : PyStr → Option P)
       (prods : List (PyStr × Producto P)),
      goodCodec renderP parseP → goodRender renderP →
      (∀ e ∈ prods, cleanRecord e.2) →
      (∀ e ∈ prods, e.1 = e.2.id) →
      (prods.map Prod.fst).Nodup →
      Manipulacion.cargar_inventario parseP
        (some (Manipulacion.serializeDelim renderP prods)) true =
        Except.ok prods) := by
  constructor
  · intro P prods hnd
    exact Manipulacion1.decodeItems_toJsonFile prods hnd
  · intro P renderP parseP prods hcodec hr hclean hids hnd
    exact Manipulacion.cargar_serialize_delim hcodec hr prods hclean hids hnd

/-- C1 witness: both round trips evaluated on concrete two-record
mappings (price type instantiated to `Nat` with the verified decimal
codec). -/
theorem spec_c1_roundtrip_witness :
    Manipulacion1.decodeItems (Manipulacion1.toJsonFile
      [(("p1").data, Producto.mk ("p1").data ("Bolt").data 10 (5 : Nat)),
       (("g1").data, Producto.mk ("g1").data ("gadget B").data 2 (7 : Nat))]) =
      some [(("p1").data, Producto.mk ("p1").data ("Bolt").data 10 (5 : Nat)),
            (("g1").data, Producto.mk ("g1").data ("gadget B").data 2 (7 : Nat))] ∧
    Manipulacion.cargar_inventario natParse
      (some (Manipulacion.serializeDelim natRender
        [(("p1").data, Producto.mk ("p1").data ("Widget A").data 10 (5 : Nat)),
         (("g1").data, Producto.mk ("g1").data ("gadget B").data (-2) (7 : Nat))]))
      true =
      Except.ok
        [(("p1").data, Producto.mk ("p1").data ("Widget A").data 10 (5 : Nat)),
         (("g1").data, Producto.mk ("g1").data ("gadget B").data (-2) (7 : Nat))] := by
  constructor
  · exact spec_c1_roundtrip.1 Nat _ (by decide)
  · exact spec_c1_roundtrip.2 Nat natRender natParse _
      natParse_goodCodec natRender_goodRender (by decide) (by decide) (by decide)

/-- C3: the claim that Store construction completes without raising on a
malformed line is false: parsing the file `"a|x|1|1\nbadline\n"` (one
good line, then a line that does not split into four fields) raises
`ValueError`, which `cargar_inventario` does not catch (it catches only
`FileNotFoundError` and `PermissionError`), so the constructor raises. -/
theorem spec_c3_malformed_raises_cex :
    Manipulacion.cargar_inventario natParse
      (some (("a|x|1|1\nbadline\n").data)) true =
      Except.error PyErr.valueError := rfl

/-- C3 (amended): for every backing file consisting of zero or more
well-formed lines followed by a malformed line (one that does not split
on `'|'` into exactly four fields, or whose quantity/price fields fail
parsing) and anything after it, loading raises `ValueError` out of Store
construction — only `FileNotFoundError` and `PermissionError` are caught
— so no Store is produced and the records parsed from the preceding
lines are not retained in any constructed Store. -/
theorem spec_c3_malformed_raises :
    ∀ (P : Type) (parseP : PyStr → Option P) (goods : List PyStr)
      (bad : PyStr) (rest : List PyStr),
      (∀ l ∈ goods, ∃ e : PyStr × Producto P,
        Manipulacion.parseLine parseP l = some e) →
      Manipulacion.parseLine parseP bad = none →
      (∀ l ∈ goods ++ bad :: rest, ∀ a ∈ l, a ≠ '\n') →
      Manipulacion.cargar_inventario parseP
        (some (List.flatten ((goods ++ bad :: rest).map (· ++ ['\n'])))) true =
        Except.error PyErr.valueError := by
  intro P parseP goods bad rest hgood hbad hnl
  unfold Manipulacion.cargar_inventario
  dsimp only
  rw [if_pos rfl]
  rw [fileLines_joinlines _ hnl]
  exact Manipulacion.cargarGo_error goods bad rest [] hgood hbad

/-- C3 witness: the amended theorem evaluated on a concrete file with
one good line, then a malformed line, then a further line. -/
theorem spec_c3_malformed_raises_witness :
    Manipulacion.cargar_inventario natParse
      (some (List.flatten
        (([("b|y|2|3").data] ++ ("no fields").data :: [("c|z|1|1").data]).map
          (· ++ ['\n'])))) true =
      (Except.error PyErr.valueError :
        Except PyErr (List (PyStr × Producto Nat))) := by
  apply spec_c3_malformed_raises Nat natParse
  · intro l hl
    rw [List.mem_singleton] at hl
    subst hl
    exact ⟨_, rfl⟩
  · rfl
  · decide

/-- C7: the claim that JSON-variant construction never lets a load-time
error escape is false for a permission error on read: the code prints and
then re-raises `PermissionError` (Manipulación1.py line 49), so it
escapes the constructor. -/
theorem spec_c7_load_recovery_cex :
    Manipulacion1.cargar_inventario
      (Manipulacion1.ReadRes.permissionDenied : Manipulacion1.ReadRes Nat) =
      Except.error PyErr.permissionError ∧
    Except.error PyErr.permissionError ≠
      (Except.ok [] : Except PyErr (List (PyStr × Producto Nat))) :=
  ⟨rfl, fun h => Except.noConfusion h⟩

/-- C7 (amended): JSON-variant construction degrades to an empty mapping
on an absent file, malformed JSON, any other read failure, and any JSON
value whose decoding raises; a successfully decoded value is loaded; but
a `PermissionError` on read is re-raised and escapes construction. -/
theorem spec_c7_load_recovery :
    ∀ P : Type,
      (Manipulacion1.cargar_inventario
        (Manipulacion1.ReadRes.absent : Manipulacion1.ReadRes P) =
        Except.ok []) ∧
      (Manipulacion1.cargar_inventario
        (Manipulacion1.ReadRes.malformed : Manipulacion1.ReadRes P) =
        Except.ok []) ∧
      (Manipulacion1.cargar_inventario
        (Manipulacion1.ReadRes.otherFail : Manipulacion1.ReadRes P) =
        Except.ok []) ∧
      (∀ j : MJson P, Manipulacion1.decodeItems j = none →
        Manipulacion1.cargar_inventario (Manipulacion1.ReadRes.good j) =
          Except.ok []) ∧
      (∀ (j : MJson P) (m : List (PyStr × Producto P)),
        Manipulacion1.decodeItems j = some m →
        Manipulacion1.cargar_inventario (Manipulacion1.ReadRes.good j) =
          Except.ok m) ∧
      (Manipulacion1.cargar_inventario
        (Manipulacion1.ReadRes.permissionDenied : Manipulacion1.ReadRes P) =
        Except.error PyErr.permissionError) := by
  intro P
  refine ⟨rfl, rfl, rfl, ?_, ?_, rfl⟩
  · intro j hj
    rw [Manipulacion1.cargar_inventario, hj]
  · intro j m hj
    rw [Manipulacion1.cargar_inventario, hj]

/-- C7 witness: the decode-failure and decode-success cases evaluated on
concrete JSON values. -/
theorem spec_c7_load_recovery_witness :
    Manipulacion1.cargar_inventario
      (Manipulacion1.ReadRes.good (MJson.jint 0) : Manipulacion1.ReadRes Nat) =
      Except.ok [] ∧
    Manipulacion1.cargar_inventario
      (Manipulacion1.ReadRes.good (Manipulacion1.toJsonFile
        [(("p1").data, Producto.mk ("p1").data ("Bolt").data 10 (5 : Nat))])) =
      Except.ok [(("p1").data, Producto.mk ("p1").data ("Bolt").data 10 (5 : Nat))] :=
  ⟨(spec_c7_load_recovery Nat).2.2.2.1 (MJson.jint 0) rfl,
   (spec_c7_load_recovery Nat).2.2.2.2.1 _ _ rfl⟩

/-- C2: the claim that a failing persist propagates to the caller of the
Store operation is false: `agregar_producto` wraps its body in a broad
`except Exception` that prints and returns `False`, so on an unwritable
file a fresh add returns `ok False` — no exception reaches the caller —
while the in-memory insertion is kept. -/
theorem spec_c2_persist_swallowed_cex :
    Manipulacion1.agregar_producto
      (Producto.mk ("p1").data ("Bolt").data 10 (5 : Nat)) []
      (Manipulacion1.FS2.mk (some (MJson.jobj [])) none false) =
      Except.ok (false,
        [(("p1").data, Producto.mk ("p1").data ("Bolt").data 10 (5 : Nat))],
        Manipulacion1.FS2.mk (some (MJson.jobj [])) none false) ∧
    (Except.ok (false,
        [(("p1").data, Producto.mk ("p1").data ("Bolt").data 10 (5 : Nat))],
        Manipulacion1.FS2.mk (some (MJson.jobj [])) none false) :
      Except PyErr
        (Bool × List (PyStr × Producto Nat) × Manipulacion1.FS2 Nat)) ≠
      Except.error PyErr.permissionError :=
  ⟨rfl, fun h => Except.noConfusion h⟩

/-- C2 (amended): in the JSON variant, when the in-memory mutation of an
add/remove/update succeeds but the persist fails, the broad
`except Exception` inside the Store operation catches the re-raised
error and returns `False` to the caller — no exception propagates — and
the already-applied in-memory mutation is not rolled back, so the
in-memory state is ahead of the on-disk state (which keeps its previous
content; the temp file is cleaned up). -/
theorem spec_c2_persist_swallowed :
    ∀ (P : Type) (prods : List (PyStr × Producto P))
      (fs : Manipulacion1.FS2 P),
      fs.writable = false →
      (∀ p : Producto P, hasKey p.id prods = false →
        Manipulacion1.agregar_producto p prods fs =
          Except.ok (false, dictInsert p.id p prods,
            Manipulacion1.FS2.mk fs.dest none false)) ∧
      (∀ k : PyStr, hasKey k prods = true →
        Manipulacion1.eliminar_producto k prods fs =
          Except.ok (false, dictErase k prods,
            Manipulacion1.FS2.mk fs.dest none false)) ∧
      (∀ (k : PyStr) (c? : Option Int) (pr? : Option P),
        hasKey k prods = true →
        Manipulacion1.actualizar_producto k c? pr? prods fs =
          Except.ok (false, dictModify k (updateProd c? pr?) prods,
            Manipulacion1.FS2.mk fs.dest none false)) := by
  intro P prods fs hw
  refine ⟨?_, ?_, ?_⟩
  · intro p hp
    unfold Manipulacion1.agregar_producto
    rw [if_neg (by rw [hp]; exact Bool.false_ne_true)]
    dsimp only
    rw [Manipulacion1.guardar_fail _ _ hw]
    dsimp only
    rw [hw]
  · intro k hk
    unfold Manipulacion1.eliminar_producto
    rw [if_pos hk]
    dsimp only
    rw [Manipulacion1.guardar_fail _ _ hw]
    dsimp only
    rw [hw]
  · intro k c? pr? hk
    unfold Manipulacion1.actualizar_producto
    rw [if_pos hk]
    dsimp only
    rw [Manipulacion1.guardar_fail _ _ hw]
    dsimp only
    rw [hw]

/-- C2 witness: the three operations evaluated against an unwritable
backing file with a one-record store. -/
theorem spec_c2_persist_swallowed_witness :
    Manipulacion1.agregar_producto
      (Producto.mk ("q2").data ("Nut").data 1 (2 : Nat))
      [(("p1").data, Producto.mk ("p1").data ("Bolt").data 10 (5 : Nat))]
      (Manipulacion1.FS2.mk (some (MJson.jobj [])) none false) =
      Except.ok (false,
        [(("p1").data, Producto.mk ("p1").data ("Bolt").data 10 (5 : Nat)),
         (("q2").data, Producto.mk ("q2").data ("Nut").data 1 (2 : Nat))],
        Manipulacion1.FS2.mk (some (MJson.jobj [])) none false) ∧
    Manipulacion1.eliminar_producto ("p1").data
      [(("p1").data, Producto.mk ("p1").data ("Bolt").data 10 (5 : Nat))]
      (Manipulacion1.FS2.mk (some (MJson.jobj [])) none false) =
      Except.ok (false, [],
        Manipulacion1.FS2.mk (some (MJson.jobj [])) none false) ∧
    Manipulacion1.actualizar_producto ("p1").data (some 3) none
      [(("p1").data, Producto.mk ("p1").data ("Bolt").data 10 (5 : Nat))]
      (Manipulacion1.FS2.mk (some (MJson.jobj [])) none false) =
      Except.ok (false,
        [(("p1").data, Producto.mk ("p1").data ("Bolt").data 3 (5 : Nat))],
        Manipulacion1.FS2.mk (some (MJson.jobj [])) none false) := by
  refine ⟨?_, ?_, ?_⟩
  · exact (spec_c2_persist_swallowed Nat
      [(("p1").data, Producto.mk ("p1").data ("Bolt").data 10 (5 : Nat))]
      (Manipulacion1.FS2.mk (some (MJson.jobj [])) none false) rfl).1
      (Producto.mk ("q2").data ("Nut").data 1 (2 : Nat)) rfl
  · exact (spec_c2_persist_swallowed Nat
      [(("p1").data, Producto.mk ("p1").data ("Bolt").data 10 (5 : Nat))]
      (Manipulacion1.FS2.mk (some (MJson.jobj [])) none false) rfl).2.1
      (("p1").data) rfl
  · exact (spec_c2_persist_swallowed Nat
      [(("p1").data, Producto.mk ("p1").data ("Bolt").data 10 (5 : Nat))]
      (Manipulacion1.FS2.mk (some (MJson.jobj [])) none false) rfl).2.2
      (("p1").data) (some 3) none rfl

/-- C4: the claim that the destination file is never absent in the crash
window is false: the save sequence removes the destination before the
rename, so termination after step 2 (remove) and before step 3 (rename)
leaves no destination file, although the pre-write destination existed. -/
theorem spec_c4_crash_window_cex :
    (Manipulacion1.guardarSteps ([] : List (PyStr × Producto Nat))
      (Manipulacion1.FS2.mk (some (MJson.jobj [])) none true) 2).dest = none ∧
    (Manipulacion1.FS2.mk (some (MJson.jobj ([] : List (PyStr × MJson Nat))))
      none true).dest = some (MJson.jobj []) :=
  ⟨rfl, rfl⟩

/-- C4 (amended): in the crash window between the completed temp-file
write (step 1) and the completed rename (step 3), the destination file is
either exactly its pre-write content (after step 1) or absent (after
step 2's remove); it is never truncated or half-written.  The step
decomposition agrees with `guardar_inventario` on a writable file. -/
theorem spec_c4_crash_window :
    ∀ (P : Type) (prods : List (PyStr × Producto P))
      (fs : Manipulacion1.FS2 P) (k : Nat),
      1 ≤ k → k ≤ 2 →
      ((Manipulacion1.guardarSteps prods fs k).dest = fs.dest ∨
       (Manipulacion1.guardarSteps prods fs k).dest = none) ∧
      (k = 1 → (Manipulacion1.guardarSteps prods fs k).dest = fs.dest) ∧
      (k = 2 → (Manipulacion1.guardarSteps prods fs k).dest = none) ∧
      (fs.writable = true →
        Manipulacion1.guardar_inventario prods fs =
          (none, Manipulacion1.guardarSteps prods fs 3)) := by
  intro P prods fs k h1 h2
  refine ⟨?_, ?_, ?_, Manipulacion1.guardar_eq_steps prods fs⟩
  · interval_cases k
    · exact Or.inl rfl
    · exact Or.inr rfl
  · intro hk
    subst hk
    rfl
  · intro hk
    subst hk
    rfl

/-- C4 witness: the crash points evaluated at a concrete pre-existing
destination; after step 1 the destination is untouched, and the step
decomposition matches a successful save. -/
theorem spec_c4_crash_window_witness :
    (Manipulacion1.guardarSteps ([] : List (PyStr × Producto Nat))
      (Manipulacion1.FS2.mk (some (MJson.jobj [])) none true) 1).dest =
      some (MJson.jobj []) ∧
    Manipulacion1.guardar_inventario ([] : List (PyStr × Producto Nat))
      (Manipulacion1.FS2.mk (some (MJson.jobj [])) none true) =
      (none, Manipulacion1.guardarSteps []
        (Manipulacion1.FS2.mk (some (MJson.jobj [])) none true) 3) :=
  ⟨(spec_c4_crash_window Nat []
      (Manipulacion1.FS2.mk (some (MJson.jobj [])) none true) 1
      (by decide) (by decide)).2.1 rfl,
   (spec_c4_crash_window Nat []
      (Manipulacion1.FS2.mk (some (MJson.jobj [])) none true) 1
      (by decide) (by decide)).2.2.2 rfl⟩

/-- C5: add with a colliding id returns false, leaves the store and the
file untouched; add with a fresh id returns true and persists the full
mapping (when the file is writable, i.e. the persist succeeds); two
consecutive adds with the same id return true then false and leave the
first Record unchanged.  Both variants. -/
theorem spec_c5_add_uniqueness :
    (∀ (P : Type) (renderP : P → PyStr) (p : Producto P)
       (prods : List (PyStr × Producto P)) (fs : Manipulacion.FS1),
      (hasKey p.id prods = true →
        Manipulacion.agregar_producto renderP p prods fs = (false, prods, fs)) ∧
      (hasKey p.id prods = false → fs.writable = true →
        Manipulacion.agregar_producto renderP p prods fs =
          (true, dictInsert p.id p prods,
           Manipulacion.FS1.mk
             (some (Manipulacion.serializeDelim renderP
               (dictInsert p.id p prods))) true)) ∧
      (∀ q : Producto P, q.id = p.id →
        Manipulacion.agregar_producto renderP q (dictInsert p.id p prods) fs =
          (false, dictInsert p.id p prods, fs) ∧
        dictLookup p.id (dictInsert p.id p prods) = some p)) ∧
    (∀ (P : Type) (p : Producto P)
       (prods : List (PyStr × Producto P)) (fs : Manipulacion1.FS2 P),
      (hasKey p.id prods = true →
        Manipulacion1.agregar_producto p prods fs =
          Except.ok (false, prods, fs)) ∧
      (hasKey p.id prods = false → fs.writable = true →
        Manipulacion1.agregar_producto p prods fs =
          Except.ok (true, dictInsert p.id p prods,
            Manipulacion1.FS2.mk
              (some (Manipulacion1.toJsonFile (dictInsert p.id p prods)))
              none true)) ∧
      (∀ q : Producto P, q.id = p.id →
        Manipulacion1.agregar_producto q (dictInsert p.id p prods) fs =
          Except.ok (false, dictInsert p.id p prods, fs) ∧
        dictLookup p.id (dictInsert p.id p prods) = some p)) := by
  constructor
  · intro P renderP p prods fs
    refine ⟨?_, ?_, ?_⟩
    · intro hp
      unfold Manipulacion.agregar_producto
      rw [if_pos hp]
    · intro hp hw
      unfold Manipulacion.agregar_producto Manipulacion.guardar_inventario
      rw [if_neg (by rw [hp]; exact Bool.false_ne_true)]
      dsimp only
      rw [if_pos hw, hw]
    · intro q hq
      refine ⟨?_, dictLookup_insert_self p.id p prods⟩
      unfold Manipulacion.agregar_producto
      rw [if_pos (by rw [hq]; exact hasKey_insert_self p.id p prods)]
  · intro P p prods fs
    refine ⟨?_, ?_, ?_⟩
    · intro hp
      exact Manipulacion1.agregar_dup p prods fs hp
    · intro hp hw
      unfold Manipulacion1.agregar_producto
      rw [if_neg (by rw [hp]; exact Bool.false_ne_true)]
      dsimp only
      rw [show Manipulacion1.guardar_inventario (dictInsert p.id p prods) fs =
          (none, Manipulacion1.FS2.mk
            (some (Manipulacion1.toJsonFile (dictInsert p.id p prods)))
            none fs.writable) from by
        unfold Manipulacion1.guardar_inventario
        rw [if_pos hw]]
      dsimp only
      rw [hw]
    · intro q hq
      refine ⟨?_, dictLookup_insert_self p.id p prods⟩
      exact Manipulacion1.agregar_dup q _ fs
        (by rw [hq]; exact hasKey_insert_self p.id p prods)

/-- C5 witness: a fresh add, then a second add with the same id,
evaluated concretely in both variants. -/
theorem spec_c5_add_uniqueness_witness :
    Manipulacion.agregar_producto natRender
      (Producto.mk ("p1").data ("Bolt").data 10 (5 : Nat)) []
      (Manipulacion.FS1.mk none true) =
      (true, [(("p1").data, Producto.mk ("p1").data ("Bolt").data 10 (5 : Nat))],
       Manipulacion.FS1.mk
         (some (Manipulacion.serializeDelim natRender
           [(("p1").data, Producto.mk ("p1").data ("Bolt").data 10 (5 : Nat))]))
         true) ∧
    (Manipulacion.agregar_producto natRender
      (Producto.mk ("p1").data ("Nut").data 1 (2 : Nat))
      (dictInsert ("p1").data
        (Producto.mk ("p1").data ("Bolt").data 10 (5 : Nat)) [])
      (Manipulacion.FS1.mk none true) =
      (false,
       dictInsert ("p1").data
         (Producto.mk ("p1").data ("Bolt").data 10 (5 : Nat)) [],
       Manipulacion.FS1.mk none true) ∧
     dictLookup ("p1").data
       (dictInsert ("p1").data
         (Producto.mk ("p1").data ("Bolt").data 10 (5 : Nat)) []) =
       some (Producto.mk ("p1").data ("Bolt").data 10 (5 : Nat))) ∧
    Manipulacion1.agregar_producto
      (Producto.mk ("p1").data ("Bolt").data 10 (5 : Nat)) []
      (Manipulacion1.FS2.mk none none true) =
      Except.ok
        (true, [(("p1").data, Producto.mk ("p1").data ("Bolt").data 10 (5 : Nat))],
         Manipulacion1.FS2.mk
           (some (Manipulacion1.toJsonFile
             [(("p1").data, Producto.mk ("p1").data ("Bolt").data 10 (5 : Nat))]))
           none true) ∧
    (Manipulacion1.agregar_producto
      (Producto.mk ("p1").data ("Nut").data 1 (2 : Nat))
      (dictInsert ("p1").data
        (Producto.mk ("p1").data ("Bolt").data 10 (5 : Nat)) [])
      (Manipulacion1.FS2.mk none none true) =
      Except.ok (false,
        dictInsert ("p1").data
          (Producto.mk ("p1").data ("Bolt").data 10 (5 : Nat)) [],
        Manipulacion1.FS2.mk none none true) ∧
     dictLookup ("p1").data
       (dictInsert ("p1").data
         (Producto.mk ("p1").data ("Bolt").data 10 (5 : Nat)) []) =
       some (Producto.mk ("p1").data ("Bolt").data 10 (5 : Nat))) := by
  refine ⟨?_, ?_, ?_, ?_⟩
  · exact (spec_c5_add_uniqueness.1 Nat natRender
      (Producto.mk ("p1").data ("Bolt").data 10 (5 : Nat)) []
      (Manipulacion.FS1.mk none true)).2.1 rfl rfl
  · exact (spec_c5_add_uniqueness.1 Nat natRender
      (Producto.mk ("p1").data ("Bolt").data 10 (5 : Nat)) []
      (Manipulacion.FS1.mk none true)).2.2
      (Producto.mk ("p1").data ("Nut").data 1 (2 : Nat)) rfl
  · exact (spec_c5_add_uniqueness.2 Nat
      (Producto.mk ("p1").data ("Bolt").data 10 (5 : Nat)) []
      (Manipulacion1.FS2.mk none none true)).2.1 rfl rfl
  · exact (spec_c5_add_uniqueness.2 Nat
      (Producto.mk ("p1").data ("Bolt").data 10 (5 : Nat)) []
      (Manipulacion1.FS2.mk none none true)).2.2
      (Producto.mk ("p1").data ("Nut").data 1 (2 : Nat)) rfl

/-- C6: for an existing id, a quantity-only update changes only that
Record's quantity (id, name and price keep their prior values) and other
records are untouched; symmetrically for price-only updates; for an
absent id, update returns false, changes no record and performs no write.
Both variants (in the JSON variant the resulting in-memory state is
characterized for any save outcome). -/
theorem spec_c6_update_partiality :
    (∀ (P : Type) (renderP : P → PyStr) (k : PyStr) (q : Int) (x : P)
       (prods : List (PyStr × Producto P)) (fs : Manipulacion.FS1),
      (∀ p : Producto P, dictLookup k prods = some p →
        (Manipulacion.actualizar_producto renderP k (some q) none prods fs).1 =
          true ∧
        dictLookup k
          (Manipulacion.actualizar_producto renderP k (some q) none prods fs).2.1 =
          some (Producto.mk p.id p.nombre q p.precio) ∧
        (∀ k2, k2 ≠ k →
          dictLookup k2
            (Manipulacion.actualizar_producto renderP k (some q) none prods fs).2.1 =
            dictLookup k2 prods)) ∧
      (∀ p : Producto P, dictLookup k prods = some p →
        (Manipulacion.actualizar_producto renderP k none (some x) prods fs).1 =
          true ∧
        dictLookup k
          (Manipulacion.actualizar_producto renderP k none (some x) prods fs).2.1 =
          some (Producto.mk p.id p.nombre p.cantidad x) ∧
        (∀ k2, k2 ≠ k →
          dictLookup k2
            (Manipulacion.actualizar_producto renderP k none (some x) prods fs).2.1 =
            dictLookup k2 prods)) ∧
      (∀ (c? : Option Int) (pr? : Option P), dictLookup k prods = none →
        Manipulacion.actualizar_producto renderP k c? pr? prods fs =
          (false, prods, fs))) ∧
    (∀ (P : Type) (k : PyStr) (q : Int) (x : P)
       (prods : List (PyStr × Producto P)) (fs : Manipulacion1.FS2 P),
      (∀ p : Producto P, dictLookup k prods = some p →
        ∀ (b : Bool) (st : List (PyStr × Producto P)) (fs2 : Manipulacion1.FS2 P),
          Manipulacion1.actualizar_producto k (some q) none prods fs =
            Except.ok (b, st, fs2) →
          dictLookup k st = some (Producto.mk p.id p.nombre q p.precio) ∧
          (∀ k2, k2 ≠ k → dictLookup k2 st = dictLookup k2 prods)) ∧
      (∀ p : Producto P, dictLookup k prods = some p →
        ∀ (b : Bool) (st : List (PyStr × Producto P)) (fs2 : Manipulacion1.FS2 P),
          Manipulacion1.actualizar_producto k none (some x) prods fs =
            Except.ok (b, st, fs2) →
          dictLookup k st = some (Producto.mk p.id p.nombre p.cantidad x) ∧
          (∀ k2, k2 ≠ k → dictLookup k2 st = dictLookup k2 prods)) ∧
      (∀ (c? : Option Int) (pr? : Option P), dictLookup k prods = none →
        Manipulacion1.actualizar_producto k c? pr? prods fs =
          Except.ok (false, prods, fs))) := by
  constructor
  · intro P renderP k q x prods fs
    refine ⟨?_, ?_, ?_⟩
    · intro p hp
      have hk : hasKey k prods = true := hasKey_of_lookup_some hp
      have hst : (Manipulacion.actualizar_producto renderP k (some q) none
          prods fs).2.1 = dictModify k (updateProd (some q) none) prods := by
        unfold Manipulacion.actualizar_producto
        rw [if_pos hk]
      refine ⟨?_, ?_, ?_⟩
      · unfold Manipulacion.actualizar_producto
        rw [if_pos hk]
      · rw [hst, dictLookup_modify_self, hp]
        rfl
      · intro k2 hk2
        rw [hst, dictLookup_modify_ne k2 k _ _ hk2]
    · intro p hp
      have hk : hasKey k prods = true := hasKey_of_lookup_some hp
      have hst : (Manipulacion.actualizar_producto renderP k none (some x)
          prods fs).2.1 = dictModify k (updateProd none (some x)) prods := by
        unfold Manipulacion.actualizar_producto
        rw [if_pos hk]
      refine ⟨?_, ?_, ?_⟩
      · unfold Manipulacion.actualizar_producto
        rw [if_pos hk]
      · rw [hst, dictLookup_modify_self, hp]
        rfl
      · intro k2 hk2
        rw [hst, dictLookup_modify_ne k2 k _ _ hk2]
    · intro c? pr? hp
      have hk : hasKey k prods = false := (hasKey_false_iff k prods).mpr hp
      unfold Manipulacion.actualizar_producto
      rw [if_neg (by rw [hk]; exact Bool.false_ne_true)]
  · intro P k q x prods fs
    refine ⟨?_, ?_, ?_⟩
    · intro p hp b st fs2 heq
      have hk : hasKey k prods = true := hasKey_of_lookup_some hp
      obtain ⟨b0, fs0, hb⟩ :=
        Manipulacion1.actualizar_state k (some q) none prods fs hk
      rw [hb] at heq
      simp only [Except.ok.injEq, Prod.mk.injEq] at heq
      obtain ⟨a1, a2, a3⟩ := heq
      rw [← a2]
      refine ⟨?_, ?_⟩
      · rw [dictLookup_modify_self, hp]
        rfl
      · intro k2 hk2
        rw [dictLookup_modify_ne k2 k _ _ hk2]
    · intro p hp b st fs2 heq
      have hk : hasKey k prods = true := hasKey_of_lookup_some hp
      obtain ⟨b0, fs0, hb⟩ :=
        Manipulacion1.actualizar_state k none (some x) prods fs hk
      rw [hb] at heq
      simp only [Except.ok.injEq, Prod.mk.injEq] at heq
      obtain ⟨a1, a2, a3⟩ := heq
      rw [← a2]
      refine ⟨?_, ?_⟩
      · rw [dictLookup_modify_self, hp]
        rfl
      · intro k2 hk2
        rw [dictLookup_modify_ne k2 k _ _ hk2]
    · intro c? pr? hp
      exact Manipulacion1.actualizar_absent k c? pr? prods fs
        ((hasKey_false_iff k prods).mpr hp)

/-- C6 witness: quantity-only update, price-only update and missing-id
update evaluated concretely in both variants. -/
theorem spec_c6_update_partiality_witness :
    dictLookup ("p1").data
      (Manipulacion.actualizar_producto natRender ("p1").data (some 3) none
        [(("p1").data, Producto.mk ("p1").data ("Bolt").data 10 (5 : Nat))]
        (Manipulacion.FS1.mk none true)).2.1 =
      some (Producto.mk ("p1").data ("Bolt").data 3 (5 : Nat)) ∧
    dictLookup ("p1").data
      (Manipulacion.actualizar_producto natRender ("p1").data none (some 9)
        [(("p1").data, Producto.mk ("p1").data ("Bolt").data 10 (5 : Nat))]
        (Manipulacion.FS1.mk none true)).2.1 =
      some (Producto.mk ("p1").data ("Bolt").data 10 (9 : Nat)) ∧
    Manipulacion.actualizar_producto natRender ("zz").data (some 1) none
      [(("p1").data, Producto.mk ("p1").data ("Bolt").data 10 (5 : Nat))]
      (Manipulacion.FS1.mk none true) =
      (false, [(("p1").data, Producto.mk ("p1").data ("Bolt").data 10 (5 : Nat))],
       Manipulacion.FS1.mk none true) ∧
    dictLookup ("p1").data
      (dictModify ("p1").data (updateProd (some 3) none)
        [(("p1").data, Producto.mk ("p1").data ("Bolt").data 10 (5 : Nat))]) =
      some (Producto.mk ("p1").data ("Bolt").data 3 (5 : Nat)) ∧
    Manipulacion1.actualizar_producto ("zz").data (some 1) none
      [(("p1").data, Producto.mk ("p1").data ("Bolt").data 10 (5 : Nat))]
      (Manipulacion1.FS2.mk none none true) =
      Except.ok (false,
        [(("p1").data, Producto.mk ("p1").data ("Bolt").data 10 (5 : Nat))],
        Manipulacion1.FS2.mk none none true) := by
  refine ⟨?_, ?_, ?_, ?_, ?_⟩
  · exact ((spec_c6_update_partiality.1 Nat natRender ("p1").data 3 (0 : Nat)
      [(("p1").data, Producto.mk ("p1").data ("Bolt").data 10 (5 : Nat))]
      (Manipulacion.FS1.mk none true)).1
      (Producto.mk ("p1").data ("Bolt").data 10 (5 : Nat)) rfl).2.1
  · exact ((spec_c6_update_partiality.1 Nat natRender ("p1").data 0 (9 : Nat)
      [(("p1").data, Producto.mk ("p1").data ("Bolt").data 10 (5 : Nat))]
      (Manipulacion.FS1.mk none true)).2.1
      (Producto.mk ("p1").data ("Bolt").data 10 (5 : Nat)) rfl).2.1
  · exact (spec_c6_update_partiality.1 Nat natRender ("zz").data 1 (0 : Nat)
      [(("p1").data, Producto.mk ("p1").data ("Bolt").data 10 (5 : Nat))]
      (Manipulacion.FS1.mk none true)).2.2 (some 1) none rfl
  · exact ((spec_c6_update_partiality.2 Nat ("p1").data 3 (0 : Nat)
      [(("p1").data, Producto.mk ("p1").data ("Bolt").data 10 (5 : Nat))]
      (Manipulacion1.FS2.mk none none true)).1
      (Producto.mk ("p1").data ("Bolt").data 10 (5 : Nat)) rfl true
      (dictModify ("p1").data (updateProd (some 3) none)
        [(("p1").data, Producto.mk ("p1").data ("Bolt").data 10 (5 : Nat))])
      (Manipulacion1.FS2.mk
        (some (Manipulacion1.toJsonFile
          (dictModify ("p1").data (updateProd (some 3) none)
            [(("p1").data, Producto.mk ("p1").data ("Bolt").data 10 (5 : Nat))])))
        none true) rfl).1
  · exact (spec_c6_update_partiality.2 Nat ("zz").data 1 (0 : Nat)
      [(("p1").data, Producto.mk ("p1").data ("Bolt").data 10 (5 : Nat))]
      (Manipulacion1.FS2.mk none none true)).2.2 (some 1) none rfl

/-- C8: `buscar_por_nombre s` returns exactly the Records whose
lowercased name contains the lowercased search string as a substring, in
store order (the result is a sublist of the values), in both variants;
on a concrete store with names "Widget A" and "gadget B", searching
"widget" returns only the "Widget A" record. -/
theorem spec_c8_search :
    (∀ (P : Type) (s : PyStr) (prods : List (PyStr × Producto P))
       (p : Producto P),
      p ∈ Manipulacion.buscar_por_nombre s prods ↔
        (p ∈ dictValues prods ∧
         ∃ l r, pyLower p.nombre = l ++ (pyLower s ++ r))) ∧
    (∀ (P : Type) (s : PyStr) (prods : List (PyStr × Producto P)),
      (Manipulacion.buscar_por_nombre s prods).Sublist (dictValues prods)) ∧
    (∀ (P : Type) (s : PyStr) (prods : List (PyStr × Producto P))
       (p : Producto P),
      p ∈ Manipulacion1.buscar_por_nombre s prods ↔
        (p ∈ dictValues prods ∧
         ∃ l r, pyLower p.nombre = l ++ (pyLower s ++ r))) ∧
    (∀ (P : Type) (s : PyStr) (prods : List (PyStr × Producto P)),
      (Manipulacion1.buscar_por_nombre s prods).Sublist (dictValues prods)) ∧
    Manipulacion.buscar_por_nombre ("widget").data
      [(("w1").data, Producto.mk ("w1").data ("Widget A").data 1 (1 : Nat)),
       (("g1").data, Producto.mk ("g1").data ("gadget B").data 1 (1 : Nat))] =
      [Producto.mk ("w1").data ("Widget A").data 1 (1 : Nat)] ∧
    Manipulacion1.buscar_por_nombre ("widget").data
      [(("w1").data, Producto.mk ("w1").data ("Widget A").data 1 (1 : Nat)),
       (("g1").data, Producto.mk ("g1").data ("gadget B").data 1 (1 : Nat))] =
      [Producto.mk ("w1").data ("Widget A").data 1 (1 : Nat)] := by
  refine ⟨?_, ?_, ?_, ?_, by decide, by decide⟩
  · intro P s prods p
    unfold Manipulacion.buscar_por_nombre
    rw [List.mem_filter]
    exact and_congr Iff.rfl (pyIn_iff (pyLower s) (pyLower p.nombre))
  · intro P s prods
    exact List.filter_sublist _
  · intro P s prods p
    unfold Manipulacion1.buscar_por_nombre
    rw [List.mem_filter]
    exact and_congr Iff.rfl (pyIn_iff (pyLower s) (pyLower p.nombre))
  · intro P s prods
    exact List.filter_sublist _

/-- C9: searching with the empty string returns every Record of the
store (the empty substring matches every name), in both variants. -/
theorem spec_c9_empty_search :
    (∀ (P : Type) (prods : List (PyStr × Producto P)),
      Manipulacion.buscar_por_nombre [] prods =
        Manipulacion.obtener_todos prods) ∧
    (∀ (P : Type) (prods : List (PyStr × Producto P)),
      Manipulacion1.buscar_por_nombre [] prods =
        Manipulacion1.obtener_todos prods) := by
  constructor
  · intro P prods
    unfold Manipulacion.buscar_por_nombre Manipulacion.obtener_todos
    exact List.filter_eq_self.mpr (fun a _ => pyIn_nil (pyLower a.nombre))
  · intro P prods
    unfold Manipulacion1.buscar_por_nombre Manipulacion1.obtener_todos
    exact List.filter_eq_self.mpr (fun a _ => pyIn_nil (pyLower a.nombre))

/-- C10: the invariant that every key of the in-memory mapping equals
the id of the record it stores is preserved by add, remove and update in
both variants. -/
theorem spec_c10_inv :
    (∀ (P : Type) (renderP : P → PyStr) (p : Producto P)
       (prods : List (PyStr × Producto P)) (fs : Manipulacion.FS1),
      invHolds prods →
      invHolds (Manipulacion.agregar_producto renderP p prods fs).2.1) ∧
    (∀ (P : Type) (renderP : P → PyStr) (k : PyStr)
       (prods : List (PyStr × Producto P)) (fs : Manipulacion.FS1),
      invHolds prods →
      invHolds (Manipulacion.eliminar_producto renderP k prods fs).2.1) ∧
    (∀ (P : Type) (renderP : P → PyStr) (k : PyStr) (c? : Option Int)
       (pr? : Option P) (prods : List (PyStr × Producto P))
       (fs : Manipulacion.FS1),
      invHolds prods →
      invHolds (Manipulacion.actualizar_producto renderP k c? pr? prods fs).2.1) ∧
    (∀ (P : Type) (p : Producto P) (prods : List (PyStr × Producto P))
       (fs : Manipulacion1.FS2 P) (b : Bool)
       (st : List (PyStr × Producto P)) (fs2 : Manipulacion1.FS2 P),
      Manipulacion1.agregar_producto p prods fs = Except.ok (b, st, fs2) →
      invHolds prods → invHolds st) ∧
    (∀ (P : Type) (k : PyStr) (prods : List (PyStr × Producto P))
       (fs : Manipulacion1.FS2 P) (b : Bool)
       (st : List (PyStr × Producto P)) (fs2 : Manipulacion1.FS2 P),
      Manipulacion1.eliminar_producto k prods fs = Except.ok (b, st, fs2) →
      invHolds prods → invHolds st) ∧
    (∀ (P : Type) (k : PyStr) (c? : Option Int) (pr? : Option P)
       (prods : List (PyStr × Producto P)) (fs : Manipulacion1.FS2 P)
       (b : Bool) (st : List (PyStr × Producto P)) (fs2 : Manipulacion1.FS2 P),
      Manipulacion1.actualizar_producto k c? pr? prods fs =
        Except.ok (b, st, fs2) →
      invHolds prods → invHolds st) := by
  refine ⟨?_, ?_, ?_, ?_, ?_, ?_⟩
  · intro P renderP p prods fs h
    by_cases hk : hasKey p.id prods = true
    · rw [show (Manipulacion.agregar_producto renderP p prods fs).2.1 = prods
        from by unfold Manipulacion.agregar_producto; rw [if_pos hk]]
      exact h
    · rw [Bool.not_eq_true] at hk
      rw [show (Manipulacion.agregar_producto renderP p prods fs).2.1 =
          dictInsert p.id p prods from by
        unfold Manipulacion.agregar_producto
        rw [if_neg (by rw [hk]; exact Bool.false_ne_true)]]
      exact invHolds_insert p h
  · intro P renderP k prods fs h
    by_cases hk : hasKey k prods = true
    · rw [show (Manipulacion.eliminar_producto renderP k prods fs).2.1 =
          dictErase k prods from by
        unfold Manipulacion.eliminar_producto; rw [if_pos hk]]
      exact invHolds_erase k h
    · rw [Bool.not_eq_true] at hk
      rw [show (Manipulacion.eliminar_producto renderP k prods fs).2.1 = prods
        from by
        unfold Manipulacion.eliminar_producto
        rw [if_neg (by rw [hk]; exact Bool.false_ne_true)]]
      exact h
  · intro P renderP k c? pr? prods fs h
    by_cases hk : hasKey k prods = true
    · rw [show (Manipulacion.actualizar_producto renderP k c? pr? prods fs).2.1 =
          dictModify k (updateProd c? pr?) prods from by
        unfold Manipulacion.actualizar_producto; rw [if_pos hk]]
      exact invHolds_modify k (updateProd_id c? pr?) h
    · rw [Bool.not_eq_true] at hk
      rw [show (Manipulacion.actualizar_producto renderP k c? pr? prods fs).2.1 =
          prods from by
        unfold Manipulacion.actualizar_producto
        rw [if_neg (by rw [hk]; exact Bool.false_ne_true)]]
      exact h
  · intro P p prods fs b st fs2 heq h
    by_cases hk : hasKey p.id prods = true
    · rw [Manipulacion1.agregar_dup p prods fs hk] at heq
      simp only [Except.ok.injEq, Prod.mk.injEq] at heq
      rw [← heq.2.1]
      exact h
    · rw [Bool.not_eq_true] at hk
      obtain ⟨b0, fs0, hb⟩ := Manipulacion1.agregar_state p prods fs hk
      rw [hb] at heq
      simp only [Except.ok.injEq, Prod.mk.injEq] at heq
      rw [← heq.2.1]
      exact invHolds_insert p h
  · intro P k prods fs b st fs2 heq h
    by_cases hk : hasKey k prods = true
    · obtain ⟨b0, fs0, hb⟩ := Manipulacion1.eliminar_state k prods fs hk
      rw [hb] at heq
      simp only [Except.ok.injEq, Prod.mk.injEq] at heq
      rw [← heq.2.1]
      exact invHolds_erase k h
    · rw [Bool.not_eq_true] at hk
      rw [Manipulacion1.eliminar_absent k prods fs hk] at heq
      simp only [Except.ok.injEq, Prod.mk.injEq] at heq
      rw [← heq.2.1]
      exact h
  · intro P k c? pr? prods fs b st fs2 heq h
    by_cases hk : hasKey k prods = true
    · obtain ⟨b0, fs0, hb⟩ := Manipulacion1.actualizar_state k c? pr? prods fs hk
      rw [hb] at heq
      simp only [Except.ok.injEq, Prod.mk.injEq] at heq
      rw [← heq.2.1]
      exact invHolds_modify k (updateProd_id c? pr?) h
    · rw [Bool.not_eq_true] at hk
      rw [Manipulacion1.actualizar_absent k c? pr? prods fs hk] at heq
      simp only [Except.ok.injEq, Prod.mk.injEq] at heq
      rw [← heq.2.1]
      exact h

/-- C10 witness: the invariant checked through a concrete add in each
variant. -/
theorem spec_c10_inv_witness :
    invHolds (Manipulacion.agregar_producto natRender
      (Producto.mk ("p1").data ("Bolt").data 10 (5 : Nat))
      [(("g1").data, Producto.mk ("g1").data ("gadget B").data 1 (1 : Nat))]
      (Manipulacion.FS1.mk none true)).2.1 ∧
    invHolds
      [(("g1").data, Producto.mk ("g1").data ("gadget B").data 1 (1 : Nat)),
       (("p1").data, Producto.mk ("p1").data ("Bolt").data 10 (5 : Nat))] := by
  constructor
  · exact spec_c10_inv.1 Nat natRender
      (Producto.mk ("p1").data ("Bolt").data 10 (5 : Nat))
      [(("g1").data, Producto.mk ("g1").data ("gadget B").data 1 (1 : Nat))]
      (Manipulacion.FS1.mk none true) (by decide)
  · exact spec_c10_inv.2.2.2.1 Nat
      (Producto.mk ("p1").data ("Bolt").data 10 (5 : Nat))
      [(("g1").data, Producto.mk ("g1").data ("gadget B").data 1 (1 : Nat))]
      (Manipulacion1.FS2.mk none none true) true
      [(("g1").data, Producto.mk ("g1").data ("gadget B").data 1 (1 : Nat)),
       (("p1").data, Producto.mk ("p1").data ("Bolt").data 10 (5 : Nat))]
      (Manipulacion1.FS2.mk
        (some (Manipulacion1.toJsonFile
          [(("g1").data, Producto.mk ("g1").data ("gadget B").data 1 (1 : Nat)),
           (("p1").data, Producto.mk ("p1").data ("Bolt").data 10 (5 : Nat))]))
        none true) rfl (by decide)
